import Mathlib

/-!
Verification of the agreementbot persistence layer (agreementbot/persistence.go).

The embedded bolt store is modelled functionally: a bucket is an association
list from string keys to stored values, and the database is an association
list from bucket names to buckets.  A stored value is either the
serialization of an Agreement (json.Marshal output, which round-trips
through json.Unmarshal) or an undecodable byte string, modelled abstractly
by the constructor `StoredVal.corrupt` (json.Unmarshal fails on it).

Each Go function becomes a Lean function in explicit state-passing style: a
write transaction that commits returns the updated database in `Except.ok`,
and a transaction that aborts returns `Except.error` and leaves the caller
holding the unchanged database, matching bolt's all-or-nothing commit.
Calls to `time.Now().Unix()` are nondeterministic inputs, so the current
time is passed as an explicit `now : Nat` parameter (the fields are
`uint64` in Go, but no arithmetic is ever performed on them, only
assignment, so `Nat` is an exact model for the realistic range).

The distinct error sites of the Go code (which returns `fmt.Errorf`
strings) become the constructors of `PError`.
-/

/-- The Agreement record, mirroring the Go struct field for field. -/
structure Agreement where
  CurrentAgreementId : String
  AgreementProtocol : String
  AgreementInceptionTime : Nat
  AgreementCreationTime : Nat
  Proposal : String
  DataVerificationURL : String
  DisableDataVerificationChecks : Bool
deriving DecidableEq

/-- A value stored in a bucket: either the serialization of an Agreement
(round-trips through decoding) or bytes that fail to decode.  The `Nat`
tag only distinguishes different corrupt byte strings. -/
inductive StoredVal where
  | encoded (a : Agreement)
  | corrupt (tag : Nat)
deriving DecidableEq

/-- json.Unmarshal into an Agreement. -/
def decode : StoredVal → Option Agreement
  | .encoded a => some a
  | .corrupt _ => none

/-- The distinct error outcomes of the persistence layer; each constructor
corresponds to one `errors.New` / `fmt.Errorf` site in the Go source. -/
inductive PError where
  /-- agreement(): "Illegal input: agreement id or agreement protocol is empty". -/
  | emptyAgreementArg
  /-- PersistNew: "Missing required args, pk and/or bucket". -/
  | missingArgs
  /-- DeleteAgreement: "Missing required arg pk". -/
  | missingPk
  /-- PersistNew: "Bucket %v already contains record with primary key: %v". -/
  | duplicateKey (bucket : String) (pk : String)
  /-- FindSingleAgreementByAgreementId: "Expected only one record ... but retrieved: %v"; carries the matched set. -/
  | ambiguousRecord (id : String) (matched : List Agreement)
  /-- singleAgreementUpdate: "Unable to locate agreement id: %v". -/
  | notFound (id : String)
  /-- persistUpdatedAgreement: "No agreement with given id available to update: %v". -/
  | noAgreementToUpdate (id : String)
  /-- persistUpdatedAgreement: "Failed to unmarshal agreement DB data: %v"; carries the raw bytes. -/
  | corruptRecord (raw : StoredVal)
  /-- DeleteAgreement: "Unknown bucket: %v". -/
  | unknownBucket (bucket : String)
deriving DecidableEq

/-- Association-list lookup, modelling `Bucket.Get` / `Tx.Bucket`. -/
def aget {α : Type} : List (String × α) → String → Option α
  | [], _ => none
  | (k, v) :: rest, key => if k = key then some v else aget rest key

/-- Association-list store, modelling `Bucket.Put` / committing a bucket:
replaces the binding if the key is present, appends it otherwise. -/
def aput {α : Type} : List (String × α) → String → α → List (String × α)
  | [], key, v => [(key, v)]
  | (k, w) :: rest, key, v =>
      if k = key then (k, v) :: rest else (k, w) :: aput rest key v

/-- Association-list removal, modelling `Bucket.Delete`. -/
def adel {α : Type} : List (String × α) → String → List (String × α)
  | [], _ => []
  | (k, w) :: rest, key =>
      if k = key then adel rest key else (k, w) :: adel rest key

/-- A bucket of the store: keys to serialized values, in store order. -/
abbrev Bucket := List (String × StoredVal)

/-- The embedded database: named buckets. -/
abbrev DB := List (String × Bucket)

/-- The bucket name constant AGREEMENTS of the Go source. -/
def AGREEMENTS : String := "agreements"

/-- `Tx.CreateBucketIfNotExists` as seen by the rest of the transaction:
the existing bucket, or a fresh empty one.  The creation itself only
becomes visible if the transaction commits (via `aput` on the database),
matching bolt's rollback of aborted transactions. -/
def createOrEmpty (db : DB) (name : String) : Bucket :=
  match aget db name with
  | some b => b
  | none => []

/-- A filter predicate over decoded Agreements (Go type `AFilter`). -/
abbrev AFilter := Agreement → Bool

/-- Go `IdAFilter`: matches records whose CurrentAgreementId equals `id`. -/
def IdAFilter (id : String) : AFilter :=
  fun a => a.CurrentAgreementId == id

/-- The body of FindAgreements' `ForEach` loop over one bucket: decode each
value, skip it if decoding fails, and include the record only when no
filter in the list rejects it (`exclude` stays false only if every filter
returns true). -/
def scanBucket (b : Bucket) (filters : List AFilter) : List Agreement :=
  b.filterMap fun kv =>
    match decode kv.2 with
    | none => none
    | some a => if filters.all (fun f => f a) then some a else none

/-- Go `FindAgreements`: read-only scan of the AGREEMENTS bucket.  A
missing bucket yields the empty list; the `View` closure always returns
nil, so no store content produces an error. -/
def FindAgreements (db : DB) (filters : List AFilter) :
    Except PError (List Agreement) :=
  match aget db AGREEMENTS with
  | none => .ok []
  | some b => .ok (scanBucket b filters)

/-- Go `FindSingleAgreementByAgreementId`: scan with a single IdAFilter;
more than one match is an error carrying the matched set, zero matches is
`none` (not an error), one match is that record. -/
def FindSingleAgreementByAgreementId (db : DB) (agreementid : String) :
    Except PError (Option Agreement) :=
  match FindAgreements db [IdAFilter agreementid] with
  | .error e => .error e
  | .ok agreements =>
      if agreements.length > 1 then
        .error (.ambiguousRecord agreementid agreements)
      else if agreements.length = 0 then
        .ok none
      else
        .ok agreements.head?

/-- Go `persistUpdatedAgreement`: inside one write transaction, re-read the
stored record under the key, fail if it vanished or cannot be decoded, then
copy only the four updateable fields from the candidate onto the record
just read, and write the merged record back. -/
def persistUpdatedAgreement (db : DB) (agreementid : String)
    (update : Agreement) : Except PError DB :=
  let b := createOrEmpty db AGREEMENTS
  match aget b agreementid with
  | none => .error (.noAgreementToUpdate agreementid)
  | some current =>
      match decode current with
      | none => .error (.corruptRecord current)
      | some mod =>
          let mod2 :=
            { mod with
              AgreementCreationTime := update.AgreementCreationTime
              Proposal := update.Proposal
              DataVerificationURL := update.DataVerificationURL
              DisableDataVerificationChecks :=
                update.DisableDataVerificationChecks }
          .ok (aput db AGREEMENTS (aput b agreementid (.encoded mod2)))

/-- Go `singleAgreementUpdate`: fetch by id (absent is an error here),
apply the caller's transformation to the fetched record, persist the
result through the merge path, and return the transformation's output. -/
def singleAgreementUpdate (db : DB) (agreementid : String)
    (fn : Agreement → Agreement) : Except PError (Agreement × DB) :=
  match FindSingleAgreementByAgreementId db agreementid with
  | .error e => .error e
  | .ok none => .error (.notFound agreementid)
  | .ok (some agreement) =>
      let updated := fn agreement
      match persistUpdatedAgreement db agreementid updated with
      | .error e => .error e
      | .ok db2 => .ok (updated, db2)

/-- Go `AgreementMade`: the canonical mutable-field update; `now` is the
value of `uint64(time.Now().Unix())` taken inside the closure. -/
def AgreementMade (db : DB) (agreementid : String) (proposal : String)
    (url : String) (checks : Bool) (now : Nat) :
    Except PError (Agreement × DB) :=
  singleAgreementUpdate db agreementid fun a =>
    { a with
      AgreementCreationTime := now
      Proposal := proposal
      DataVerificationURL := url
      DisableDataVerificationChecks := checks }

/-- Go `AgreementUpdate`: delegates to AgreementMade. -/
def AgreementUpdate (db : DB) (agreementid : String) (proposal : String)
    (url : String) (checks : Bool) (now : Nat) :
    Except PError (Agreement × DB) :=
  AgreementMade db agreementid proposal url checks now

/-- Go private factory `agreement`: fails when either argument is empty,
otherwise builds the record with inception time `now` and zero-valued
mutable fields. -/
def agreement (agreementid : String) (agreementProto : String) (now : Nat) :
    Except PError Agreement :=
  if agreementid = "" ∨ agreementProto = "" then
    .error .emptyAgreementArg
  else
    .ok
      { CurrentAgreementId := agreementid
        AgreementProtocol := agreementProto
        AgreementInceptionTime := now
        AgreementCreationTime := 0
        Proposal := ""
        DataVerificationURL := ""
        DisableDataVerificationChecks := false }

/-- Go `PersistNew`: generic create-if-absent write.  The Go signature
takes `record interface\x7b\x7d`; this repository only ever passes Agreement
records through it, so the model is specialized to Agreement payloads. -/
def PersistNew (db : DB) (pk : String) (bucket : String)
    (record : Agreement) : Except PError DB :=
  if pk = "" ∨ bucket = "" then
    .error .missingArgs
  else
    let b := createOrEmpty db bucket
    match aget b pk with
    | some _ => .error (.duplicateKey bucket pk)
    | none => .ok (aput db bucket (aput b pk (.encoded record)))

/-- Go `AgreementAttempt`: build a fresh agreement and persist it under its
own id in the AGREEMENTS bucket. -/
def AgreementAttempt (db : DB) (agreementid : String)
    (agreementProto : String) (now : Nat) : Except PError DB :=
  match agreement agreementid agreementProto now with
  | .error e => .error e
  | .ok ag => PersistNew db ag.CurrentAgreementId AGREEMENTS ag

/-- Go `DeleteAgreement`: empty key is an error, a missing bucket is an
error, a missing record is logged and treated as success (the transaction
commits without touching the store), and an existing record is removed
(the decode done for the audit warning never blocks the deletion). -/
def DeleteAgreement (db : DB) (pk : String) : Except PError DB :=
  if pk = "" then
    .error .missingPk
  else
    match aget db AGREEMENTS with
    | none => .error (.unknownBucket AGREEMENTS)
    | some b =>
        match aget b pk with
        | none => .ok db
        | some _ => .ok (aput db AGREEMENTS (adel b pk))

/-- The list of agreements a scan of the store produces: the payload of
`FindAgreements` (which never errors). -/
def agreementsList (db : DB) (filters : List AFilter) : List Agreement :=
  match aget db AGREEMENTS with
  | none => []
  | some b => scanBucket b filters

/-- The stored records matching a given id: the intermediate list of
`FindSingleAgreementByAgreementId`. -/
def matchesById (db : DB) (id : String) : List Agreement :=
  agreementsList db [IdAFilter id]

/-- The raw stored value under key `id` in the AGREEMENTS bucket. -/
def lookupAgreement (db : DB) (id : String) : Option StoredVal :=
  match aget db AGREEMENTS with
  | none => none
  | some b => aget b id

/-- A sample agreement used to witness the theorems on concrete inputs. -/
def agA : Agreement :=
  { CurrentAgreementId := "a"
    AgreementProtocol := "p"
    AgreementInceptionTime := 5
    AgreementCreationTime := 0
    Proposal := ""
    DataVerificationURL := ""
    DisableDataVerificationChecks := false }

/-- A sample candidate record whose immutable fields differ from agA. -/
def candX : Agreement :=
  { CurrentAgreementId := "zz"
    AgreementProtocol := "q"
    AgreementInceptionTime := 9
    AgreementCreationTime := 7
    Proposal := "P"
    DataVerificationURL := "U"
    DisableDataVerificationChecks := true }

/-- A sample store holding exactly agA under key "a". -/
def dbOne : DB := [(AGREEMENTS, [("a", StoredVal.encoded agA)])]

/-- A sample store whose AGREEMENTS bucket exists but is empty. -/
def dbEmptyBucket : DB := [(AGREEMENTS, ([] : Bucket))]

lemma aget_aput_self {α : Type} (l : List (String × α)) (k : String)
    (v : α) : aget (aput l k v) k = some v := by
  induction l with
  | nil => simp [aput, aget]
  | cons hd tl ih =>
      obtain ⟨k0, w⟩ := hd
      by_cases h : k0 = k
      · simp [aput, aget, h]
      · simp [aput, aget, h, ih]

lemma aput_of_aget_none {α : Type} (l : List (String × α)) (k : String)
    (v : α) (h : aget l k = none) : aput l k v = l ++ [(k, v)] := by
  induction l with
  | nil => simp [aput]
  | cons hd tl ih =>
      obtain ⟨k0, w⟩ := hd
      by_cases hk : k0 = k
      · simp [aget, hk] at h
      · simp [aget, hk] at h
        simp [aput, hk, ih h]

lemma aget_append_single_self {α : Type} (l : List (String × α))
    (k : String) (v : α) (h : aget l k = none) :
    aget (l ++ [(k, v)]) k = some v := by
  induction l with
  | nil => simp [aget]
  | cons hd tl ih =>
      obtain ⟨k0, w⟩ := hd
      by_cases hk : k0 = k
      · simp [aget, hk] at h
      · simp [aget, hk] at h
        simpa [aget, hk] using ih h

lemma aput_append_single_self {α : Type} (l : List (String × α))
    (k : String) (v w : α) (h : aget l k = none) :
    aput (l ++ [(k, v)]) k w = l ++ [(k, w)] := by
  induction l with
  | nil => simp [aput]
  | cons hd tl ih =>
      obtain ⟨k0, u⟩ := hd
      by_cases hk : k0 = k
      · simp [aget, hk] at h
      · simp [aget, hk] at h
        simp [aput, hk, ih h]

lemma scanBucket_append (b1 b2 : Bucket) (fs : List AFilter) :
    scanBucket (b1 ++ b2) fs = scanBucket b1 fs ++ scanBucket b2 fs := by
  simp [scanBucket, List.filterMap_append]

lemma scanBucket_singleton_encoded (k : String) (a : Agreement)
    (fs : List AFilter) :
    scanBucket [(k, StoredVal.encoded a)] fs =
      if fs.all (fun f => f a) then [a] else [] := by
  cases h : fs.all fun f => f a <;>
    simp only [scanBucket, List.filterMap_cons, List.filterMap_nil, decode,
      h, if_true, if_false, Bool.false_eq_true, ite_false, ite_true]

lemma findAgreements_eq (db : DB) (fs : List AFilter) :
    FindAgreements db fs = .ok (agreementsList db fs) := by
  cases h : aget db AGREEMENTS <;>
    simp [FindAgreements, agreementsList, h]

lemma findSingle_eq (db : DB) (id : String) :
    FindSingleAgreementByAgreementId db id =
      if (matchesById db id).length > 1 then
        .error (.ambiguousRecord id (matchesById db id))
      else if (matchesById db id).length = 0 then
        .ok none
      else
        .ok (matchesById db id).head? := by
  simp [FindSingleAgreementByAgreementId, findAgreements_eq, matchesById]

/-- The record the factory builds on success. -/
def mkNewAgreement (id : String) (proto : String) (now : Nat) : Agreement :=
  { CurrentAgreementId := id
    AgreementProtocol := proto
    AgreementInceptionTime := now
    AgreementCreationTime := 0
    Proposal := ""
    DataVerificationURL := ""
    DisableDataVerificationChecks := false }

lemma agreement_ok (id : String) (proto : String) (now : Nat)
    (hid : id ≠ "") (hproto : proto ≠ "") :
    agreement id proto now = .ok (mkNewAgreement id proto now) := by
  simp [agreement, hid, hproto, mkNewAgreement]

lemma scan_createOrEmpty (db : DB) (fs : List AFilter) :
    scanBucket (createOrEmpty db AGREEMENTS) fs = agreementsList db fs := by
  cases h : aget db AGREEMENTS <;>
    simp [createOrEmpty, agreementsList, scanBucket, h]

lemma attempt_ok_shape (db : DB) (db1 : DB) (id : String) (proto : String)
    (now : Nat) (h : AgreementAttempt db id proto now = .ok db1) :
    id ≠ "" ∧ proto ≠ "" ∧
    aget (createOrEmpty db AGREEMENTS) id = none ∧
    db1 = aput db AGREEMENTS
      (createOrEmpty db AGREEMENTS ++
        [(id, StoredVal.encoded (mkNewAgreement id proto now))]) := by
  by_cases hbad : id = "" ∨ proto = ""
  · simp [AgreementAttempt, agreement, hbad] at h
  · push_neg at hbad
    obtain ⟨hid, hproto⟩ := hbad
    rw [AgreementAttempt, agreement_ok id proto now hid hproto] at h
    have hA : AGREEMENTS ≠ "" := by decide
    simp only [PersistNew, mkNewAgreement] at h
    rw [if_neg (by simp [hid, hA])] at h
    cases hg : aget (createOrEmpty db AGREEMENTS) id with
    | some v =>
        rw [hg] at h
        simp at h
    | none =>
        rw [hg] at h
        simp only [Except.ok.injEq] at h
        refine ⟨hid, hproto, rfl, ?_⟩
        rw [← h, aput_of_aget_none _ _ _ hg, mkNewAgreement]

lemma agreementsList_of_aget (db : DB) (b : Bucket) (fs : List AFilter)
    (h : aget db AGREEMENTS = some b) :
    agreementsList db fs = scanBucket b fs := by
  simp [agreementsList, h]

lemma matches_aput_append (db : DB) (b0 : Bucket) (id : String)
    (a : Agreement)
    (hscan : scanBucket b0 [IdAFilter id] = [])
    (hid : a.CurrentAgreementId = id) :
    matchesById
      (aput db AGREEMENTS (b0 ++ [(id, StoredVal.encoded a)])) id = [a] := by
  have hb :
      aget (aput db AGREEMENTS (b0 ++ [(id, StoredVal.encoded a)]))
        AGREEMENTS = some (b0 ++ [(id, StoredVal.encoded a)]) :=
    aget_aput_self db AGREEMENTS (b0 ++ [(id, StoredVal.encoded a)])
  simp only [matchesById]
  rw [agreementsList_of_aget _ _ _ hb, scanBucket_append, hscan,
    scanBucket_singleton_encoded]
  simp [IdAFilter, hid]

lemma created_matches (db : DB) (db1 : DB) (id : String) (proto : String)
    (now : Nat) (hclean : matchesById db id = [])
    (h : AgreementAttempt db id proto now = .ok db1) :
    matchesById db1 id = [mkNewAgreement id proto now] := by
  obtain ⟨hid, hproto, hfree, hdb1⟩ := attempt_ok_shape db db1 id proto now h
  have hscan : scanBucket (createOrEmpty db AGREEMENTS) [IdAFilter id] = [] := by
    rw [scan_createOrEmpty]
    exact hclean
  rw [hdb1]
  exact matches_aput_append db (createOrEmpty db AGREEMENTS) id
    (mkNewAgreement id proto now) hscan rfl

/-- Claim C2: FindSingleAgreementByAgreementId returns absent (ok none,
not an error) when zero stored records match the id, the single matching
record when exactly one matches, and an AmbiguousRecord error carrying the
full matched set when more than one matches. -/
theorem spec_C2 (db : DB) (id : String) :
    (matchesById db id = [] →
      FindSingleAgreementByAgreementId db id = .ok none)
  ∧ (∀ a : Agreement, matchesById db id = [a] →
      FindSingleAgreementByAgreementId db id = .ok (some a))
  ∧ (1 < (matchesById db id).length →
      FindSingleAgreementByAgreementId db id =
        .error (.ambiguousRecord id (matchesById db id))) := by
  refine ⟨?_, ?_, ?_⟩
  · intro h0
    rw [findSingle_eq, h0]
    simp
  · intro a ha
    rw [findSingle_eq, ha]
    simp
  · intro hlen
    rw [findSingle_eq, if_pos hlen]

/-- Witness for C2 at a concrete store: one stored record matching "a". -/
theorem spec_C2_witness :
    FindSingleAgreementByAgreementId dbOne "a" = .ok (some agA) :=
  (spec_C2 dbOne "a").2.1 agA (by decide)

/-- Claim C4: creating an agreement with AgreementAttempt (on a store with
no record matching the id) and then finding it by id returns exactly the
record the factory constructed: the given id and protocol, the inception
time taken at construction, creation time 0, empty proposal and data
verification URL, and checks disabled flag false. -/
theorem spec_C4 (db : DB) (db1 : DB) (id : String) (proto : String)
    (now : Nat) (hclean : matchesById db id = [])
    (hcreate : AgreementAttempt db id proto now = .ok db1) :
    FindSingleAgreementByAgreementId db1 id =
      .ok (some
        { CurrentAgreementId := id
          AgreementProtocol := proto
          AgreementInceptionTime := now
          AgreementCreationTime := 0
          Proposal := ""
          DataVerificationURL := ""
          DisableDataVerificationChecks := false }) := by
  have hm := created_matches db db1 id proto now hclean hcreate
  rw [findSingle_eq, hm]
  simp [mkNewAgreement]

/-- Witness for C4: create "a"/"p" at time 5 in the empty store, then
find it. -/
theorem spec_C4_witness :
    FindSingleAgreementByAgreementId dbOne "a" =
      .ok (some
        { CurrentAgreementId := "a"
          AgreementProtocol := "p"
          AgreementInceptionTime := 5
          AgreementCreationTime := 0
          Proposal := ""
          DataVerificationURL := ""
          DisableDataVerificationChecks := false }) :=
  spec_C4 [] dbOne "a" "p" 5 (by decide) (by rfl)

lemma persistUpdated_ok (db : DB) (b : Bucket) (id : String)
    (a0 : Agreement) (cand : Agreement)
    (hb : aget db AGREEMENTS = some b)
    (ha : aget b id = some (StoredVal.encoded a0)) :
    persistUpdatedAgreement db id cand =
      .ok (aput db AGREEMENTS (aput b id (StoredVal.encoded
        { a0 with
          AgreementCreationTime := cand.AgreementCreationTime
          Proposal := cand.Proposal
          DataVerificationURL := cand.DataVerificationURL
          DisableDataVerificationChecks :=
            cand.DisableDataVerificationChecks }))) := by
  have hco : createOrEmpty db AGREEMENTS = b := by
    simp [createOrEmpty, hb]
  simp only [persistUpdatedAgreement, hco, ha, decode]

lemma singleAgreementUpdate_ok (db : DB) (b : Bucket) (id : String)
    (a0 : Agreement) (fn : Agreement → Agreement)
    (hmatch : matchesById db id = [a0])
    (hb : aget db AGREEMENTS = some b)
    (ha : aget b id = some (StoredVal.encoded a0)) :
    singleAgreementUpdate db id fn =
      .ok (fn a0, aput db AGREEMENTS (aput b id (StoredVal.encoded
        { a0 with
          AgreementCreationTime := (fn a0).AgreementCreationTime
          Proposal := (fn a0).Proposal
          DataVerificationURL := (fn a0).DataVerificationURL
          DisableDataVerificationChecks :=
            (fn a0).DisableDataVerificationChecks }))) := by
  have hfs : FindSingleAgreementByAgreementId db id = .ok (some a0) := by
    rw [findSingle_eq, hmatch]
    simp
  have hp := persistUpdated_ok db b id a0 (fn a0) hb ha
  simp only [singleAgreementUpdate, hfs, hp]

/-- Claim C1: a successful persistUpdatedAgreement leaves the stored
record's id, protocol and inception time exactly as they were before the
update, whatever the candidate contains in those fields; only the four
mutable fields are copied from the candidate onto the freshly read stored
record. -/
theorem spec_C1 (db : DB) (b : Bucket) (id : String) (a0 : Agreement)
    (cand : Agreement)
    (hb : aget db AGREEMENTS = some b)
    (ha : aget b id = some (StoredVal.encoded a0)) :
    ∃ db1, persistUpdatedAgreement db id cand = .ok db1 ∧
      lookupAgreement db1 id = some (StoredVal.encoded
        { CurrentAgreementId := a0.CurrentAgreementId
          AgreementProtocol := a0.AgreementProtocol
          AgreementInceptionTime := a0.AgreementInceptionTime
          AgreementCreationTime := cand.AgreementCreationTime
          Proposal := cand.Proposal
          DataVerificationURL := cand.DataVerificationURL
          DisableDataVerificationChecks :=
            cand.DisableDataVerificationChecks }) := by
  refine ⟨_, persistUpdated_ok db b id a0 cand hb ha, ?_⟩
  simp only [lookupAgreement, aget_aput_self]

/-- Witness for C1: update the record stored under "a" in dbOne with a
candidate whose immutable fields all differ; the stored immutable fields
survive, the mutable fields are taken from the candidate. -/
theorem spec_C1_witness :
    ∃ db1, persistUpdatedAgreement dbOne "a" candX = .ok db1 ∧
      lookupAgreement db1 "a" = some (StoredVal.encoded
        { CurrentAgreementId := agA.CurrentAgreementId
          AgreementProtocol := agA.AgreementProtocol
          AgreementInceptionTime := agA.AgreementInceptionTime
          AgreementCreationTime := candX.AgreementCreationTime
          Proposal := candX.Proposal
          DataVerificationURL := candX.DataVerificationURL
          DisableDataVerificationChecks :=
            candX.DisableDataVerificationChecks }) :=
  spec_C1 dbOne [("a", StoredVal.encoded agA)] "a" agA candX
    (by decide) (by decide)

/-- Claim C10: the Agreement returned by a successful
singleAgreementUpdate is the transformation's output computed from the
record fetched in the initial read, while the record actually stored is
the merge that keeps the stored immutable fields; when the transformation
alters the id, the returned value and the stored record disagree. -/
theorem spec_C10 (db : DB) (b : Bucket) (id : String) (a0 : Agreement)
    (fn : Agreement → Agreement)
    (hmatch : matchesById db id = [a0])
    (hb : aget db AGREEMENTS = some b)
    (ha : aget b id = some (StoredVal.encoded a0)) :
    ∃ db1, singleAgreementUpdate db id fn = .ok (fn a0, db1) ∧
      lookupAgreement db1 id = some (StoredVal.encoded
        { a0 with
          AgreementCreationTime := (fn a0).AgreementCreationTime
          Proposal := (fn a0).Proposal
          DataVerificationURL := (fn a0).DataVerificationURL
          DisableDataVerificationChecks :=
            (fn a0).DisableDataVerificationChecks }) ∧
      ((fn a0).CurrentAgreementId ≠ a0.CurrentAgreementId →
        lookupAgreement db1 id ≠ some (StoredVal.encoded (fn a0))) := by
  refine ⟨_, singleAgreementUpdate_ok db b id a0 fn hmatch hb ha, ?_, ?_⟩
  · simp only [lookupAgreement, aget_aput_self]
  · intro hne hstored
    simp only [lookupAgreement, aget_aput_self, Option.some.injEq,
      StoredVal.encoded.injEq] at hstored
    apply hne
    rw [← hstored]

/-- Witness for C10: a transformation that rewrites the id to "zz"; the
call returns the rewritten record while the store keeps id "a". -/
theorem spec_C10_witness :
    ∃ db1,
      singleAgreementUpdate dbOne "a" (fun _ => candX) = .ok (candX, db1) ∧
      lookupAgreement db1 "a" = some (StoredVal.encoded
        { agA with
          AgreementCreationTime := candX.AgreementCreationTime
          Proposal := candX.Proposal
          DataVerificationURL := candX.DataVerificationURL
          DisableDataVerificationChecks :=
            candX.DisableDataVerificationChecks }) ∧
      (candX.CurrentAgreementId ≠ agA.CurrentAgreementId →
        lookupAgreement db1 "a" ≠ some (StoredVal.encoded candX)) :=
  spec_C10 dbOne [("a", StoredVal.encoded agA)] "a" agA (fun _ => candX)
    (by decide) (by decide) (by decide)

/-- Claim C5: after a successful AgreementMade on an agreement created at
inception time now0, re-fetching by id shows proposal, data verification
URL and checks flag equal to the supplied arguments and creation time
now1 (positive when the clock is), while id, protocol and inception time
are exactly as at creation. -/
theorem spec_C5 (db : DB) (db1 : DB) (id : String) (proto : String)
    (p : String) (u : String) (c : Bool) (now0 : Nat) (now1 : Nat)
    (hclean : matchesById db id = [])
    (hcreate : AgreementAttempt db id proto now0 = .ok db1)
    (hpos : 0 < now1) :
    ∃ ret db2,
      AgreementMade db1 id p u c now1 = .ok (ret, db2) ∧
      FindSingleAgreementByAgreementId db2 id =
        .ok (some
          { CurrentAgreementId := id
            AgreementProtocol := proto
            AgreementInceptionTime := now0
            AgreementCreationTime := now1
            Proposal := p
            DataVerificationURL := u
            DisableDataVerificationChecks := c }) ∧
      0 < ({ CurrentAgreementId := id
             AgreementProtocol := proto
             AgreementInceptionTime := now0
             AgreementCreationTime := now1
             Proposal := p
             DataVerificationURL := u
             DisableDataVerificationChecks := c } :
               Agreement).AgreementCreationTime := by
  obtain ⟨hid, hproto, hfree, hdb1⟩ :=
    attempt_ok_shape db db1 id proto now0 hcreate
  have hm1 : matchesById db1 id = [mkNewAgreement id proto now0] :=
    created_matches db db1 id proto now0 hclean hcreate
  have hb1 : aget db1 AGREEMENTS =
      some (createOrEmpty db AGREEMENTS ++
        [(id, StoredVal.encoded (mkNewAgreement id proto now0))]) := by
    rw [hdb1]
    exact aget_aput_self _ _ _
  have hget1 : aget
      (createOrEmpty db AGREEMENTS ++
        [(id, StoredVal.encoded (mkNewAgreement id proto now0))]) id =
      some (StoredVal.encoded (mkNewAgreement id proto now0)) :=
    aget_append_single_self _ _ _ hfree
  have hupd := singleAgreementUpdate_ok db1
    (createOrEmpty db AGREEMENTS ++
      [(id, StoredVal.encoded (mkNewAgreement id proto now0))])
    id (mkNewAgreement id proto now0)
    (fun a =>
      { a with
        AgreementCreationTime := now1
        Proposal := p
        DataVerificationURL := u
        DisableDataVerificationChecks := c })
    hm1 hb1 hget1
  rw [aput_append_single_self _ _ _ _ hfree] at hupd
  have hupd2 : AgreementMade db1 id p u c now1 =
      .ok (⟨id, proto, now0, now1, p, u, c⟩,
        aput db1 AGREEMENTS
          (createOrEmpty db AGREEMENTS ++
            [(id, StoredVal.encoded (⟨id, proto, now0, now1, p, u, c⟩ :
              Agreement))])) := hupd
  refine ⟨_, _, hupd2, ?_, hpos⟩
  have hscan0 : scanBucket (createOrEmpty db AGREEMENTS) [IdAFilter id] = [] := by
    rw [scan_createOrEmpty]
    exact hclean
  have hm2 := matches_aput_append db1 (createOrEmpty db AGREEMENTS) id
    (⟨id, proto, now0, now1, p, u, c⟩ : Agreement) hscan0 rfl
  rw [findSingle_eq, hm2]
  simp

/-- Witness for C5: create ("a","p") at time 5 in the empty store, mark it
made with ("P","U",true) at time 7, and re-fetch. -/
theorem spec_C5_witness :
    ∃ ret db2,
      AgreementMade dbOne "a" "P" "U" true 7 = .ok (ret, db2) ∧
      FindSingleAgreementByAgreementId db2 "a" =
        .ok (some
          { CurrentAgreementId := "a"
            AgreementProtocol := "p"
            AgreementInceptionTime := 5
            AgreementCreationTime := 7
            Proposal := "P"
            DataVerificationURL := "U"
            DisableDataVerificationChecks := true }) ∧
      0 < ({ CurrentAgreementId := "a"
             AgreementProtocol := "p"
             AgreementInceptionTime := 5
             AgreementCreationTime := 7
             Proposal := "P"
             DataVerificationURL := "U"
             DisableDataVerificationChecks := true } :
               Agreement).AgreementCreationTime :=
  spec_C5 [] dbOne "a" "p" "P" "U" true 5 7 (by decide) (by rfl) (by decide)

/-- Claim C3: creating a record under a key that is already stored fails
with the duplicate-key error and, the transaction having aborted, the
store and in particular the first stored record are unchanged (the failed
call returns no new store, and the first record is still the one the
first creation wrote). -/
theorem spec_C3 (db : DB) (db1 : DB) (b : Bucket) (id : String)
    (proto : String) (proto2 : String) (now : Nat) (now2 : Nat)
    (pk : String) (bucket : String) (v : StoredVal) (rec : Agreement) :
    (pk ≠ "" → bucket ≠ "" → aget db bucket = some b →
      aget b pk = some v →
      PersistNew db pk bucket rec = .error (.duplicateKey bucket pk))
  ∧ (AgreementAttempt db id proto now = .ok db1 → proto2 ≠ "" →
      AgreementAttempt db1 id proto2 now2 =
        .error (.duplicateKey AGREEMENTS id) ∧
      lookupAgreement db1 id =
        some (StoredVal.encoded (mkNewAgreement id proto now))) := by
  constructor
  · intro hpk hbu hbkt ha
    have hco : createOrEmpty db bucket = b := by
      simp [createOrEmpty, hbkt]
    simp only [PersistNew, hco, ha]
    rw [if_neg (by simp [hpk, hbu])]
  · intro hcr hproto2
    obtain ⟨hid, hproto, hfree, hdb1⟩ :=
      attempt_ok_shape db db1 id proto now hcr
    have hb1 : aget db1 AGREEMENTS =
        some (createOrEmpty db AGREEMENTS ++
          [(id, StoredVal.encoded (mkNewAgreement id proto now))]) := by
      rw [hdb1]
      exact aget_aput_self _ _ _
    have hget1 : aget
        (createOrEmpty db AGREEMENTS ++
          [(id, StoredVal.encoded (mkNewAgreement id proto now))]) id =
        some (StoredVal.encoded (mkNewAgreement id proto now)) :=
      aget_append_single_self _ _ _ hfree
    have hco1 : createOrEmpty db1 AGREEMENTS =
        createOrEmpty db AGREEMENTS ++
          [(id, StoredVal.encoded (mkNewAgreement id proto now))] := by
      simp [createOrEmpty, hb1]
    constructor
    · rw [AgreementAttempt, agreement_ok id proto2 now2 hid hproto2]
      have hget1L := hget1
      simp only [mkNewAgreement] at hget1L
      simp only [PersistNew, mkNewAgreement, hco1]
      rw [if_neg (by simp [hid, AGREEMENTS]), hget1L]
    · simp [lookupAgreement, hb1, hget1]

/-- Witness for C3: after creating ("a","p") at time 5 in the empty store,
a second create of "a" fails with the duplicate-key error and the first
record is still stored. -/
theorem spec_C3_witness :
    AgreementAttempt dbOne "a" "q" 9 =
      .error (.duplicateKey AGREEMENTS "a") ∧
    lookupAgreement dbOne "a" =
      some (StoredVal.encoded (mkNewAgreement "a" "p" 5)) :=
  (spec_C3 [] dbOne [] "a" "p" "q" 5 9 "x" "y" (StoredVal.corrupt 0)
    agA).2 (by rfl) (by decide)

/-- Claim C9: singleAgreementUpdate fails with the not-found error when
no stored record matches the id, propagates the ambiguous-record error
when several match, and persistUpdatedAgreement fails with the
no-agreement-to-update error when the key is absent at write time and
with the corrupt-record error when the stored bytes do not decode. -/
theorem spec_C9 (db : DB) (b : Bucket) (id : String)
    (fn : Agreement → Agreement) (u : Agreement) (j : Nat) :
    (matchesById db id = [] →
      singleAgreementUpdate db id fn = .error (.notFound id))
  ∧ (1 < (matchesById db id).length →
      singleAgreementUpdate db id fn =
        .error (.ambiguousRecord id (matchesById db id)))
  ∧ (aget (createOrEmpty db AGREEMENTS) id = none →
      persistUpdatedAgreement db id u = .error (.noAgreementToUpdate id))
  ∧ (aget db AGREEMENTS = some b → aget b id = some (StoredVal.corrupt j) →
      persistUpdatedAgreement db id u =
        .error (.corruptRecord (StoredVal.corrupt j))) := by
  refine ⟨?_, ?_, ?_, ?_⟩
  · intro h
    have hfs : FindSingleAgreementByAgreementId db id = .ok none := by
      rw [findSingle_eq, h]
      simp
    simp only [singleAgreementUpdate, hfs]
  · intro h
    have hfs : FindSingleAgreementByAgreementId db id =
        .error (.ambiguousRecord id (matchesById db id)) := by
      rw [findSingle_eq, if_pos h]
    simp only [singleAgreementUpdate, hfs]
  · intro h
    simp only [persistUpdatedAgreement, h]
  · intro hb ha
    have hco : createOrEmpty db AGREEMENTS = b := by
      simp [createOrEmpty, hb]
    simp only [persistUpdatedAgreement, hco, ha, decode]

/-- Witness for C9: an update against an empty bucket is not-found at the
lookup step, the write step reports the vanished key, and a corrupt stored
value yields the corrupt-record error. -/
theorem spec_C9_witness :
    persistUpdatedAgreement dbEmptyBucket "a" candX =
      .error (.noAgreementToUpdate "a") ∧
    persistUpdatedAgreement [(AGREEMENTS, [("a", StoredVal.corrupt 0)])]
      "a" candX = .error (.corruptRecord (StoredVal.corrupt 0)) ∧
    singleAgreementUpdate dbEmptyBucket "a" (fun a => a) =
      .error (.notFound "a") :=
  ⟨(spec_C9 dbEmptyBucket [] "a" (fun a => a) candX 0).2.2.1 (by decide),
   (spec_C9 [(AGREEMENTS, [("a", StoredVal.corrupt 0)])]
     [("a", StoredVal.corrupt 0)] "a" (fun a => a) candX 0).2.2.2
     (by decide) (by decide),
   (spec_C9 dbEmptyBucket [] "a" (fun a => a) candX 0).1 (by decide)⟩

/-- Claim C6: FindAgreements includes a decoded record only when every
filter in the supplied list accepts it (logical AND across the filter
list); in particular adding an always-false filter to an IdAFilter makes
the scan return nothing at all. -/
theorem spec_C6 (db : DB) (filters : List AFilter) :
    (∀ l : List Agreement, ∀ a : Agreement,
      FindAgreements db filters = .ok l → a ∈ l →
        ∀ f ∈ filters, f a = true)
  ∧ (∀ id : String,
      FindAgreements db [IdAFilter id, fun _ => false] =
        .ok ([] : List Agreement)) := by
  constructor
  · intro l a hok hmem f hf
    rw [findAgreements_eq] at hok
    have hl : agreementsList db filters = l := by
      simpa using hok
    rw [← hl] at hmem
    cases hb : aget db AGREEMENTS with
    | none =>
        have hnil : agreementsList db filters = [] := by
          simp [agreementsList, hb]
        rw [hnil] at hmem
        simp at hmem
    | some bkt =>
        rw [agreementsList_of_aget db bkt filters hb] at hmem
        simp only [scanBucket] at hmem
        rw [List.mem_filterMap] at hmem
        obtain ⟨kv, hkv, heq⟩ := hmem
        cases hd : decode kv.2 with
        | none =>
            rw [hd] at heq
            simp at heq
        | some a2 =>
            rw [hd] at heq
            simp only [] at heq
            split at heq
            · next hall =>
                have ha2 : a2 = a := by
                  simpa using heq
                subst ha2
                exact (List.all_eq_true.mp hall) f hf
            · next hall =>
                simp at heq
  · intro id
    rw [findAgreements_eq]
    have hnil : agreementsList db [IdAFilter id, fun _ => false] = [] := by
      cases hb : aget db AGREEMENTS with
      | none => simp [agreementsList, hb]
      | some bkt =>
          rw [agreementsList_of_aget db bkt _ hb]
          simp only [scanBucket]
          rw [List.filterMap_eq_nil_iff]
          intro kv hkv
          cases hd : decode kv.2 <;> simp [hd]
    rw [hnil]

/-- Witness for C6: with the stored record "a", the single IdAFilter
accepts it, and pairing that filter with an always-false filter excludes
it (the scan returns the empty list). -/
theorem spec_C6_witness :
    IdAFilter "a" agA = true ∧
    FindAgreements dbOne [IdAFilter "a", fun _ => false] =
      .ok ([] : List Agreement) :=
  ⟨(spec_C6 dbOne [IdAFilter "a"]).1 [agA] agA (by rfl)
      (List.mem_singleton.mpr rfl) (IdAFilter "a")
      (List.mem_singleton.mpr rfl),
   (spec_C6 dbOne [IdAFilter "a", fun _ => false]).2 "a"⟩

/-- Claim C7: DeleteAgreement fails on an empty key and on a bucket that
was never created; with the bucket present but the key absent it logs and
returns success with the store unchanged, so deleting the same absent id
twice in a row both succeed. -/
theorem spec_C7 (db : DB) (b : Bucket) (pk : String) :
    (DeleteAgreement db "" = .error .missingPk)
  ∧ (pk ≠ "" → aget db AGREEMENTS = none →
      DeleteAgreement db pk = .error (.unknownBucket AGREEMENTS))
  ∧ (pk ≠ "" → aget db AGREEMENTS = some b → aget b pk = none →
      DeleteAgreement db pk = .ok db ∧
      Except.bind (DeleteAgreement db pk)
        (fun db2 => DeleteAgreement db2 pk) = .ok db) := by
  refine ⟨by simp [DeleteAgreement], ?_, ?_⟩
  · intro hpk hb
    simp [DeleteAgreement, hpk, hb]
  · intro hpk hb hnone
    have h1 : DeleteAgreement db pk = .ok db := by
      simp [DeleteAgreement, hpk, hb, hnone]
    exact ⟨h1, by rw [h1, Except.bind]; exact h1⟩

/-- Witness for C7: deleting the never-created id "a" from a store whose
AGREEMENTS bucket is empty succeeds, and so does deleting it twice. -/
theorem spec_C7_witness :
    DeleteAgreement dbEmptyBucket "a" = .ok dbEmptyBucket ∧
    Except.bind (DeleteAgreement dbEmptyBucket "a")
      (fun db2 => DeleteAgreement db2 "a") = .ok dbEmptyBucket :=
  (spec_C7 dbEmptyBucket [] "a").2.2 (by decide) (by decide) (by decide)

/-- Claim C8: FindAgreements never fails because of store content: it
always returns ok, a missing bucket yields the empty sequence, and a
stored value that fails to decode is skipped while the scan of the
remaining entries continues. -/
theorem spec_C8 (db : DB) (filters : List AFilter) :
    (∃ l : List Agreement, FindAgreements db filters = .ok l)
  ∧ (aget db AGREEMENTS = none →
      FindAgreements db filters = .ok ([] : List Agreement))
  ∧ (∀ b1 b2 : Bucket, ∀ k : String, ∀ j : Nat,
      scanBucket (b1 ++ (k, StoredVal.corrupt j) :: b2) filters =
        scanBucket (b1 ++ b2) filters) := by
  refine ⟨⟨agreementsList db filters, findAgreements_eq db filters⟩, ?_, ?_⟩
  · intro h
    simp [FindAgreements, h]
  · intro b1 b2 k j
    simp [scanBucket, List.filterMap_append, List.filterMap_cons, decode]

/-- Witness for C8: a store with no AGREEMENTS bucket scans to the empty
sequence, and a corrupt value sitting after record "a" is skipped. -/
theorem spec_C8_witness :
    FindAgreements ([] : DB) ([] : List AFilter) =
      .ok ([] : List Agreement) ∧
    scanBucket [("a", StoredVal.encoded agA), ("x", StoredVal.corrupt 0)]
        ([] : List AFilter) =
      scanBucket [("a", StoredVal.encoded agA)] ([] : List AFilter) :=
  ⟨(spec_C8 [] []).2.1 (by decide),
   (spec_C8 [] []).2.2 [("a", StoredVal.encoded agA)] [] "x" 0⟩
